import Mathlib

/-!
Verification of the grizzly columnar Series engine.

The Go source is embedded shallowly:

* `float64` values are modelled as exact rationals (`ℚ`); every concrete
  value appearing in the claims (small integers, halves) is exactly
  representable in binary64, so on those inputs the idealised arithmetic
  agrees with the machine arithmetic.
* The `Series` struct (fields `DataType`, `Float`, `String`) is declared in a
  repository file that is not part of `src/`; its shape is fully determined
  by the field accesses in `src/unnamed/part_000` and `src/unnamed/part_001`.
* Go panics (out-of-range indexing, wrong-variant preconditions) are
  modelled as `Option.none`.
* `runtime.NumCPU()` is a call-time runtime value; it appears as an explicit
  parameter `P`.  Worker completion order (the order in which goroutine
  results are received from a channel, or the winner of a `sync.Once` race)
  is modelled as an explicit schedule parameter: a permutation of the chunk
  indexes.  A deterministic contract must hold for every schedule.
-/

/-- The Series struct: a tagged union of a float column and a string column.
The struct declaration itself lives outside `src/`, but every field and its
type is fixed by the accesses in `src/unnamed/part_000` and
`src/unnamed/part_001` (`series.DataType`, `series.Float []float64`,
`series.String []string`). -/
structure Series where
  DataType : String
  Float : List ℚ
  String : List String
deriving DecidableEq

/-- Modelled from the spec: `GetLength` is not under `src/`; per §3 of the
spec, "Length is the length of the active sequence", the active sequence
being selected by the tag exactly as `RemoveIndexes` selects it. -/
def GetLength (s : Series) : ℕ :=
  if s.DataType = "float" then s.Float.length else s.String.length

/-- Numeric value of a list of decimal digit characters, most significant
first (the usual left fold). -/
def digitsVal (cs : List Char) : ℕ :=
  cs.foldl (fun a c => 10 * a + (c.toNat - 48)) 0

/-- Model of the unsigned part of Go `strconv.ParseFloat`: digits with an
optional single fractional point (`"3"`, `"1.5"`, `"1."`, `".5"`).  The
exponent, hexadecimal, `Inf` and `NaN` forms accepted by the real parser are
outside the model; every string the claims mention is plain decimal. -/
def parseDecimal (cs : List Char) : Option ℚ :=
  let ip := cs.takeWhile Char.isDigit
  let rest := cs.dropWhile Char.isDigit
  match rest with
  | [] => if ip.isEmpty then none else some (digitsVal ip : ℚ)
  | '.' :: rest2 =>
    let fp := rest2.takeWhile Char.isDigit
    let rest3 := rest2.dropWhile Char.isDigit
    if rest3.isEmpty && !(ip.isEmpty && fp.isEmpty) then
      some ((digitsVal ip : ℚ) + (digitsVal fp : ℚ) / (10 : ℚ) ^ fp.length)
    else none
  | _ => none

/-- Model of Go `strconv.ParseFloat(s, 64)` on plain decimal input:
optional sign followed by `parseDecimal`; `none` models a non-nil error. -/
def parseFloat (str : String) : Option ℚ :=
  match str.data with
  | [] => none
  | '-' :: rest => (parseDecimal rest).map (fun q => -q)
  | '+' :: rest => parseDecimal rest
  | cs => parseDecimal cs

/-- Decimal digits of a fractional value `q ∈ [0, 1)`, produced by repeated
multiplication by 10 until the remainder is zero (bounded by fuel; 64 steps
suffice for every binary64 fraction).  No trailing zeros are produced
because the recursion stops exactly when the remainder vanishes. -/
def fracDigits : ℚ → ℕ → List Char
  | _, 0 => []
  | q, fuel + 1 =>
    if q = 0 then []
    else
      let q10 := q * 10
      let d := q10.floor.toNat
      Char.ofNat (48 + d) :: fracDigits (q10 - (d : ℚ)) fuel

/-- Decimal rendering of a nonnegative rational: integer part, then a
fractional part only when it is nonzero. -/
def formatNonneg (q : ℚ) : String :=
  let ip := q.floor.toNat
  let fr := q - (q.floor : ℚ)
  if fr = 0 then toString ip
  else toString ip ++ "." ++ String.mk (fracDigits fr 64)

/-- Model of Go `strconv.FormatFloat(f, 'f', -1, 64)`: the shortest plain
decimal form that round-trips.  Under the exact-rational idealisation the
shortest round-tripping form is the exact terminating expansion with no
trailing zeros, which is what `formatNonneg` produces. -/
def formatFloat (q : ℚ) : String :=
  if q < 0 then "-" ++ formatNonneg (-q) else formatNonneg q

/-- Chunk size used by every parallel routine in `src/unnamed/part_001`:
`chunkSize := (length + numGoroutines - 1) / numGoroutines`. -/
def chunkSize (L P : ℕ) : ℕ := (L + P - 1) / P

/-- The chunk ranges `[i*chunkSize, min((i+1)*chunkSize, L))` for
`i = 0 .. P-1`, exactly as computed in `FilterFloatSeries` and
`ConvertStringToFloat`. -/
def chunkList (L P : ℕ) : List (ℕ × ℕ) :=
  (List.range P).map (fun i => (i * chunkSize L P, min ((i + 1) * chunkSize L P) L))

/-- `RemoveIndexes` from `src/unnamed/part_001`: rebuilds the active backing
sequence from the elements at the listed indexes, in list order.  Go panics
on an out-of-range index; `none` models that panic. -/
def removeIndexes (s : Series) (idxs : List ℕ) : Option Series :=
  if s.DataType = "float" then
    if idxs.all (fun i => i < s.Float.length) then
      some { s with Float := idxs.map (fun i => s.Float.getD i 0) }
    else none
  else
    if idxs.all (fun i => i < s.String.length) then
      some { s with String := idxs.map (fun i => s.String.getD i "") }
    else none

/-- The local match list one worker of `FilterFloatSeries` produces for the
range `[st, en)`: the global indexes `j` with `condition(series.Float[j])`,
in ascending order. -/
def localMatches (s : Series) (condition : ℚ → Bool) (st en : ℕ) : List ℕ :=
  (List.range' st (en - st)).filter (fun j => condition (s.Float.getD j 0))

/-- `FilterFloatSeries` from `src/unnamed/part_001`.  `P` models
`runtime.NumCPU()`; `sched` models the order in which the per-chunk slices
are received from the channel, i.e. worker completion order (the Go loop
`for indexes := range ch` appends slices in receive order).  The panic on a
non-float series is `none`. -/
def filterFloatSeries (s : Series) (condition : ℚ → Bool) (P : ℕ)
    (sched : List ℕ) : Option (List ℕ × Series) :=
  if s.DataType ≠ "float" then none
  else
    let L := GetLength s
    if L = 0 then some ([], s)
    else
      let c := chunkSize L P
      let idxs := (sched.map (fun i => localMatches s condition (i * c) (min ((i + 1) * c) L))).flatten
      (removeIndexes s idxs).map (fun s2 => (idxs, s2))

/-- Element-by-element parse of a whole string column; `none` as soon as any
element fails, mirroring "if any worker records an error the new float array
is discarded".  The workers of `ConvertStringToFloat` write only the local
`floatArray`, never the Series, so the observable outcome is
schedule-independent: unchanged on any failure, the fully parsed array on
success. -/
def parseAll : List String → Option (List ℚ)
  | [] => some []
  | x :: xs =>
    match parseFloat x, parseAll xs with
    | some v, some vs => some (v :: vs)
    | _, _ => none

/-- `ConvertStringToFloat` from `src/unnamed/part_001`, observable Series
outcome.  Note the source assigns `series.Float` and clears `series.String`
on success but never touches `series.DataType`. -/
def convertStringToFloat (s : Series) : Series :=
  if s.DataType = "float" then s
  else
    match parseAll s.String with
    | none => s
    | some arr => { s with Float := arr, String := [] }

/-- First failing global index inside one chunk `[st, en)` of a string
column: each worker scans its own range in ascending order and stops at its
first parse failure. -/
def firstFailInRange (l : List String) (st en : ℕ) : Option ℕ :=
  (List.range' st (en - st)).find? (fun j => (parseFloat (l.getD j "")).isNone)

/-- First failing index of chunk `i` under the partition used by
`ConvertStringToFloat`. -/
def chunkFirstFail (s : Series) (P i : ℕ) : Option ℕ :=
  let L := s.String.length
  firstFailInRange s.String (i * chunkSize L P) (min ((i + 1) * chunkSize L P) L)

/-- The failure the source reports (via `fmt.Println` of `firstErr` — the
error is printed, not returned).  `firstErr` is written once, by whichever
failing worker reaches `once.Do` first; `sched` models that temporal order
of the chunks, so the recorded failure is the first chunk in `sched` that
has a failure at all, at that chunk's own first failing index. -/
def reportedFailIndex (s : Series) (P : ℕ) (sched : List ℕ) : Option ℕ :=
  (sched.filterMap (chunkFirstFail s P)).head?

/-- `ConvertFloatToString` from `src/unnamed/part_001`: no error path exists
(`firstErr` is never assigned), every element is formatted into the fresh
`stringArray`, which is installed while `series.Float` is cleared; again
`series.DataType` is never touched. -/
def convertFloatToString (s : Series) : Series :=
  if s.DataType = "string" then s
  else { s with String := s.Float.map formatFloat, Float := [] }

/-- The largest finite float64, `math.MaxFloat64 = (2 - 2^-52) * 2^1023`,
used by `arrayMin`/`arrayMax` as the initial accumulator. -/
def maxFloat64 : ℚ := 2 ^ 1024 - 2 ^ 971

/-- Modelled from the spec: `arrayFloatBase` lives in a repository file not
under `src/`.  Per §4.2, each worker folds the combine function sequentially
over its chunk starting from `identity` and the partial results are combined
order-independently (the combine is associative and commutative), so over
the exact numeric model the channel of partials is modelled as the single
partial obtained by folding the whole column.  The Go closure takes
`(info, result)`. -/
def arrayFloatBase (init : ℚ) (data : List ℚ) (f : ℚ → ℚ → ℚ) : List ℚ :=
  [data.foldl (fun result info => f info result) init]

/-- `arrayMean` from `src/general_arrays_maths.go`. -/
def arrayMean (data : List ℚ) : ℚ :=
  let chain := arrayFloatBase 0 data (fun info result => result + info)
  (chain.foldl (fun result val => result + val) 0) / (data.length : ℚ)

/-- `arrayProduct` from `src/general_arrays_maths.go`. -/
def arrayProduct (data : List ℚ) : ℚ :=
  let chain := arrayFloatBase 1 data (fun info result => result * info)
  chain.foldl (fun result val => result * val) 1

/-- `arraySum` from `src/general_arrays_maths.go`. -/
def arraySum (data : List ℚ) : ℚ :=
  let chain := arrayFloatBase 0 data (fun info result => result + info)
  chain.foldl (fun result val => result + val) 0

/-- `arrayVariance` from `src/general_arrays_maths.go`; the Go variadic
`meanP ...float64` becomes an explicit list argument (`[]` = not supplied,
as in every call from `GetVariance`). -/
def arrayVariance (data : List ℚ) (meanP : List ℚ) : ℚ :=
  let mean := match meanP with
    | m :: _ => m
    | [] => arrayMean data
  let chain := arrayFloatBase 0 data
    (fun info result => result + (info - mean) * (info - mean))
  (chain.foldl (fun result val => result + val) 0) / (data.length : ℚ)

/-- `arrayMin` from `src/general_arrays_maths.go`: per-chunk fold starting
from `math.MaxFloat64`, then the blocking first receive initialises the
accumulator and the remaining partials are folded. -/
def arrayMin (data : List ℚ) : ℚ :=
  let chain := arrayFloatBase maxFloat64 data
    (fun info result => if info < result then info else result)
  match chain with
  | [] => 0
  | v :: rest => rest.foldl (fun m x => if x < m then x else m) v

/-- `arrayMax` from `src/general_arrays_maths.go`. -/
def arrayMax (data : List ℚ) : ℚ :=
  let chain := arrayFloatBase (-maxFloat64) data
    (fun info result => if info > result then info else result)
  match chain with
  | [] => 0
  | v :: rest => rest.foldl (fun m x => if x > m then x else m) v

/-- Sorted insertion, the auxiliary step of the sequential sort model. -/
def insertSorted (x : ℚ) : List ℚ → List ℚ
  | [] => [x]
  | y :: ys => if x ≤ y then x :: y :: ys else y :: insertSorted x ys

/-- Modelled from the spec: `ParallelSortFloat` lives in a repository file
not under `src/`.  Per §4.6 it is a parallel merge sort returning a sorted
copy; any correct sort of rationals returns the same sorted sequence, so it
is modelled as a sequential insertion sort. -/
def ParallelSortFloat (nums : List ℚ) : List ℚ :=
  nums.foldr insertSorted []

/-- `arrayMedian` from `src/general_arrays_maths.go`. -/
def arrayMedian (nums0 : List ℚ) : ℚ :=
  let nums := ParallelSortFloat nums0
  let n := nums.length
  if n % 2 = 1 then nums.getD (n / 2) 0
  else (nums.getD (n / 2 - 1) 0 + nums.getD (n / 2) 0) / 2

/-- `arrayCalculatePercentile` from `src/general_arrays_maths.go`; the Go
`int(index)` truncation is modelled by `floor.toNat` (the two agree on the
nonnegative range, the only one the claims exercise). -/
def arrayCalculatePercentile (nums : List ℚ) (percentile : ℚ) : ℚ :=
  let size := nums.length
  let index := (percentile / 100) * (size : ℚ)
  let lower := index.floor.toNat
  let upper := lower + 1
  let weight := index - (lower : ℚ)
  if upper ≥ size then nums.getD lower 0
  else nums.getD lower 0 * (1 - weight) + nums.getD upper 0 * weight

/-- `GetMax` from `src/unnamed/part_000`; the Go pair `(float64, error)` is
a pair of the value and an optional error message. -/
def GetMax (s : Series) : ℚ × Option String :=
  if s.DataType = "string" then (0, some "to get max select a float column")
  else if GetLength s = 0 then (0, some "GetMax requires a non-empty array")
  else (arrayMax s.Float, none)

/-- `GetMin` from `src/unnamed/part_000`. -/
def GetMin (s : Series) : ℚ × Option String :=
  if s.DataType = "string" then (0, some "to get min select a float column")
  else if GetLength s = 0 then (0, some "GetMin requires a non-empty array")
  else (arrayMin s.Float, none)

/-- `GetMean` from `src/unnamed/part_000`. -/
def GetMean (s : Series) : ℚ × Option String :=
  if s.DataType = "string" then (0, some "to get mean select a float column")
  else if GetLength s = 0 then (0, some "GetMean requires a non-empty array")
  else (arrayMean s.Float, none)

/-- `GetMedian` from `src/unnamed/part_000`. -/
def GetMedian (s : Series) : ℚ × Option String :=
  if s.DataType = "string" then (0, some "to get median select a float column")
  else if GetLength s = 0 then (0, some "GetMedian requires a non-empty array")
  else (arrayMedian s.Float, none)

/-- `GetProduct` from `src/unnamed/part_000`. -/
def GetProduct (s : Series) : ℚ × Option String :=
  if s.DataType = "string" then (0, some "to get product select a float column")
  else if GetLength s = 0 then (0, some "GetProduct requires a non-empty array")
  else (arrayProduct s.Float, none)

/-- `GetSum` from `src/unnamed/part_000`. -/
def GetSum (s : Series) : ℚ × Option String :=
  if s.DataType = "string" then (0, some "to get sum select a float column")
  else if GetLength s = 0 then (0, some "GetSum requires a non-empty array")
  else (arraySum s.Float, none)

/-- `GetVariance` from `src/unnamed/part_000`. -/
def GetVariance (s : Series) : ℚ × Option String :=
  if s.DataType = "string" then (0, some "to get variance select a float column")
  else if GetLength s = 0 then (0, some "GetVariance requires a non-empty array")
  else (arrayVariance s.Float [], none)

/-- A whole-column parse fails as soon as any element fails. -/
theorem parseAll_eq_none_of_mem (l : List String)
    (h : ∃ x ∈ l, parseFloat x = none) : parseAll l = none := by
  induction l with
  | nil => simp at h
  | cons a l ih =>
    obtain ⟨x, hx, hpx⟩ := h
    rcases List.mem_cons.mp hx with h1 | h2
    · subst h1
      simp [parseAll, hpx]
    · have hl := ih ⟨x, h2, hpx⟩
      cases hpa : parseFloat a <;> simp [parseAll, hpa, hl]

/-- C1: for a string-typed Series in which some element fails to parse,
`ConvertStringToFloat` leaves the Series completely unchanged — `String`,
`Float` and `DataType` are all as before the call; the workers write only
the call-local `floatArray`, so no partial mutation is observable. -/
theorem convertStringToFloat_failure_frame (s : Series)
    (hd : s.DataType = "string")
    (h : ∃ x ∈ s.String, parseFloat x = none) :
    convertStringToFloat s = s := by
  have hne : s.DataType ≠ "float" := by
    rw [hd]; decide
  have hp := parseAll_eq_none_of_mem s.String h
  simp [convertStringToFloat, hne, hp]

/-- C1 witness: the spec's own example `["1.5", "x", "3"]` is returned
untouched. -/
theorem convertStringToFloat_failure_frame_witness :
    convertStringToFloat ⟨"string", [], ["1.5", "x", "3"]⟩
      = ⟨"string", [], ["1.5", "x", "3"]⟩ :=
  convertStringToFloat_failure_frame ⟨"string", [], ["1.5", "x", "3"]⟩ rfl
    ⟨"x", by decide, by decide⟩

/-- C2: `FilterFloatSeries` concatenates the per-chunk index lists in the
order the channel delivers them, i.e. worker completion order.  On
`[10,20,30,40,50]` with predicate `> 15` and two workers, the completion
order chunk 1 before chunk 0 yields indexes `[3,4,1,2]` and Series
`[40,50,20,30]` — not the ascending-chunk-order result `[1,2,3,4]` /
`[20,30,40,50]`, which appears only when workers happen to finish in chunk
order. -/
theorem filterFloatSeries_depends_on_completion_order :
    filterFloatSeries ⟨"float", [10, 20, 30, 40, 50], []⟩
        (fun x => decide (15 < x)) 2 [1, 0]
      = some ([3, 4, 1, 2], ⟨"float", [40, 50, 20, 30], []⟩) ∧
    filterFloatSeries ⟨"float", [10, 20, 30, 40, 50], []⟩
        (fun x => decide (15 < x)) 2 [0, 1]
      = some ([1, 2, 3, 4], ⟨"float", [20, 30, 40, 50], []⟩) ∧
    ([3, 4, 1, 2] : List ℕ) ≠ [1, 2, 3, 4] := by
  refine ⟨by decide, by decide, by decide⟩

/-- C3: the failure recorded by `ConvertStringToFloat` is whichever
worker's first failure wins the `once.Do` race, so it depends on the
schedule: on `["x","1","y","2"]` with two chunks, the schedule in which
chunk 1 fails first reports index 2, while the chunk-order schedule reports
index 0 — the reported index is not deterministically the minimum. -/
theorem reportedFailIndex_schedule_dependent :
    reportedFailIndex ⟨"string", [], ["x", "1", "y", "2"]⟩ 2 [1, 0] = some 2 ∧
    reportedFailIndex ⟨"string", [], ["x", "1", "y", "2"]⟩ 2 [0, 1] = some 0 ∧
    (some 2 : Option ℕ) ≠ some 0 := by
  refine ⟨by decide, by decide, by decide⟩

/-- C4 counterexample: `arrayCalculatePercentile([10,20,30,40], 50)` is not
25. -/
theorem arrayCalculatePercentile_example_ne_25 :
    arrayCalculatePercentile [10, 20, 30, 40] 50 ≠ 25 := by
  with_unfolding_all decide

/-- C4 amended: `arrayCalculatePercentile([10,20,30,40], 50)` returns 30,
the value the §4.6 rule produces: `idx = (50/100)*4 = 2`, `lower = 2`,
`upper = 3` (in bounds), `weight = 0`, hence
`value[2]*(1-0) + value[3]*0 = 30`. -/
theorem arrayCalculatePercentile_example_eq_30 :
    arrayCalculatePercentile [10, 20, 30, 40] 50 = 30 := by
  with_unfolding_all decide

/-- C5: for every length `L` and worker count `P >= 1`, the chunk ranges
`[i*chunkSize, min((i+1)*chunkSize, L))` cover `[0, L)` exactly (an index is
below `L` iff some chunk contains it), are pairwise disjoint and ordered by
index (each chunk ends no later than any later chunk starts), and `L = 0`
yields no non-empty chunk. -/
theorem chunkList_partition (L P : ℕ) (hP : 1 ≤ P) :
    (∀ x, x < L ↔ ∃ c ∈ chunkList L P, c.1 ≤ x ∧ x < c.2) ∧
    (∀ i j, i < j → j < P →
      min ((i + 1) * chunkSize L P) L ≤ j * chunkSize L P) ∧
    (L = 0 → ∀ c ∈ chunkList L P, c.2 ≤ c.1) := by
  refine ⟨?_, ?_, ?_⟩
  · intro x
    constructor
    · intro hx
      have hcs : 0 < chunkSize L P := by
        rw [chunkSize]
        exact (Nat.one_le_div_iff (by omega)).mpr (by omega)
      have hLP : L ≤ chunkSize L P * P := by
        have h1 : (L + P - 1) % P < P := Nat.mod_lt _ (by omega)
        have h2 : P * ((L + P - 1) / P) + (L + P - 1) % P = L + P - 1 :=
          Nat.div_add_mod _ _
        have h3 : chunkSize L P * P = P * ((L + P - 1) / P) := by
          rw [chunkSize, Nat.mul_comm]
        omega
      refine ⟨(x / chunkSize L P * chunkSize L P,
        min ((x / chunkSize L P + 1) * chunkSize L P) L), ?_, ?_, ?_⟩
      · simp only [chunkList, List.mem_map, List.mem_range]
        refine ⟨x / chunkSize L P, ?_, rfl⟩
        exact Nat.div_lt_of_lt_mul (lt_of_lt_of_le hx hLP)
      · exact Nat.div_mul_le_self x (chunkSize L P)
      · have h1 : x % chunkSize L P < chunkSize L P := Nat.mod_lt _ hcs
        have h2 : chunkSize L P * (x / chunkSize L P) + x % chunkSize L P = x :=
          Nat.div_add_mod _ _
        have h3 : (x / chunkSize L P + 1) * chunkSize L P
            = chunkSize L P * (x / chunkSize L P) + chunkSize L P := by ring
        exact lt_min (by omega) hx
    · rintro ⟨c, hc, h1, h2⟩
      have hcL : c.2 ≤ L := by
        simp only [chunkList, List.mem_map, List.mem_range] at hc
        obtain ⟨i, -, rfl⟩ := hc
        exact min_le_right _ _
      omega
  · intro i j hij hjP
    calc min ((i + 1) * chunkSize L P) L ≤ (i + 1) * chunkSize L P :=
          min_le_left _ _
      _ ≤ j * chunkSize L P := Nat.mul_le_mul_right _ hij
  · intro hL c hc
    simp only [chunkList, List.mem_map, List.mem_range] at hc
    obtain ⟨i, -, rfl⟩ := hc
    simp [hL]

/-- C5 witness: with `L = 5`, `P = 2` the first chunk ends (at index 3) no
later than the second chunk starts. -/
theorem chunkList_partition_witness :
    min ((0 + 1) * chunkSize 5 2) 5 ≤ 1 * chunkSize 5 2 :=
  (chunkList_partition 5 2 (by decide)).2.1 0 1 (by decide) (by decide)

/-- C6: each numeric reduction getter returns a non-nil error exactly when
the Series is string-typed or its length is 0, and on a non-empty
float-typed Series returns its reduction value with a nil error. -/
theorem getReductions_error_iff (s : Series) :
    (((GetSum s).2 ≠ none ↔ s.DataType = "string" ∨ GetLength s = 0) ∧
     ((GetMean s).2 ≠ none ↔ s.DataType = "string" ∨ GetLength s = 0) ∧
     ((GetMin s).2 ≠ none ↔ s.DataType = "string" ∨ GetLength s = 0) ∧
     ((GetMax s).2 ≠ none ↔ s.DataType = "string" ∨ GetLength s = 0) ∧
     ((GetProduct s).2 ≠ none ↔ s.DataType = "string" ∨ GetLength s = 0) ∧
     ((GetVariance s).2 ≠ none ↔ s.DataType = "string" ∨ GetLength s = 0) ∧
     ((GetMedian s).2 ≠ none ↔ s.DataType = "string" ∨ GetLength s = 0)) ∧
    (s.DataType = "float" → s.Float ≠ [] →
      (GetSum s = (arraySum s.Float, none) ∧
       GetMean s = (arrayMean s.Float, none) ∧
       GetMin s = (arrayMin s.Float, none) ∧
       GetMax s = (arrayMax s.Float, none) ∧
       GetProduct s = (arrayProduct s.Float, none) ∧
       GetVariance s = (arrayVariance s.Float [], none) ∧
       GetMedian s = (arrayMedian s.Float, none))) := by
  constructor
  · by_cases h1 : s.DataType = "string" <;> by_cases h2 : GetLength s = 0 <;>
      simp [GetSum, GetMean, GetMin, GetMax, GetProduct, GetVariance,
        GetMedian, h1, h2]
  · intro hf hne
    have h1 : ¬s.DataType = "string" := by
      rw [hf]; decide
    have h2 : ¬GetLength s = 0 := by
      rw [GetLength, if_pos hf]
      simpa [List.length_eq_zero] using hne
    simp [GetSum, GetMean, GetMin, GetMax, GetProduct, GetVariance,
      GetMedian, h1, h2]

/-- C6 witness: on the non-empty float Series `[2, 4]`, sum and product
come back with a nil error. -/
theorem getReductions_error_iff_witness :
    GetSum ⟨"float", [2, 4], []⟩ = (6, none) ∧
    GetProduct ⟨"float", [2, 4], []⟩ = (8, none) := by
  have h := (getReductions_error_iff ⟨"float", [2, 4], []⟩).2 rfl (by decide)
  refine ⟨h.1.trans ?_, h.2.2.2.2.1.trans ?_⟩
  · with_unfolding_all decide
  · with_unfolding_all decide

/-- Folding an additive accumulation is summing the mapped list. -/
theorem foldl_add_eq_sum (g : ℚ → ℚ) (l : List ℚ) :
    ∀ a : ℚ, l.foldl (fun result info => result + g info) a = a + (l.map g).sum := by
  induction l with
  | nil => intro a; simp
  | cons x xs ih => intro a; simp [ih, add_assoc]

/-- C7: `arrayVariance` computes population variance — the sum of squared
deviations from the mean divided by the element count — and on
`[2,4,4,4,5,5,7,9]` (via `GetVariance` as well) it is exactly 4; dividing
the same sum of squares by count - 1 would not give 4. -/
theorem arrayVariance_population :
    (∀ data : List ℚ, arrayVariance data [] =
      ((data.map (fun x => (x - arrayMean data) * (x - arrayMean data))).sum)
        / (data.length : ℚ)) ∧
    arrayVariance [2, 4, 4, 4, 5, 5, 7, 9] [] = 4 ∧
    GetVariance ⟨"float", [2, 4, 4, 4, 5, 5, 7, 9], []⟩ = (4, none) ∧
    ((([2, 4, 4, 4, 5, 5, 7, 9] : List ℚ).map
        (fun x => (x - arrayMean [2, 4, 4, 4, 5, 5, 7, 9])
          * (x - arrayMean [2, 4, 4, 4, 5, 5, 7, 9]))).sum)
      / ((([2, 4, 4, 4, 5, 5, 7, 9] : List ℚ).length : ℚ) - 1) ≠ 4 := by
  refine ⟨?_, by with_unfolding_all decide, by with_unfolding_all decide,
    by with_unfolding_all decide⟩
  intro data
  simp only [arrayVariance, arrayFloatBase, List.foldl_cons, List.foldl_nil]
  rw [foldl_add_eq_sum]
  simp

/-- C7 witness: the population-variance formula instantiated at `[1, 3]`. -/
theorem arrayVariance_population_witness :
    arrayVariance [1, 3] [] =
      ((([1, 3] : List ℚ).map
        (fun x => (x - arrayMean [1, 3]) * (x - arrayMean [1, 3]))).sum)
        / ((([1, 3] : List ℚ).length : ℚ)) :=
  arrayVariance_population.1 [1, 3]

/-- C8: neither conversion ever flips `DataType`, so after a successful
`ConvertStringToFloat` on `["1.5", "2.0", "3"]` the tag is still `"string"`
and the following `ConvertFloatToString` returns immediately: the round
trip ends with `String = []`, not `["1.5", "2", "3"]`.  The formatter
itself does produce `["1.5", "2", "3"]` when handed a float-tagged Series
with the same values. -/
theorem convert_roundtrip_tag_bug :
    convertStringToFloat ⟨"string", [], ["1.5", "2.0", "3"]⟩
      = ⟨"string", [3 / 2, 2, 3], []⟩ ∧
    convertFloatToString (convertStringToFloat ⟨"string", [], ["1.5", "2.0", "3"]⟩)
      = ⟨"string", [3 / 2, 2, 3], []⟩ ∧
    (convertFloatToString (convertStringToFloat ⟨"string", [], ["1.5", "2.0", "3"]⟩)).String
      ≠ ["1.5", "2", "3"] ∧
    convertFloatToString ⟨"float", [3 / 2, 2, 3], []⟩
      = ⟨"float", [], ["1.5", "2", "3"]⟩ := by
  refine ⟨?_, ?_, ?_, ?_⟩ <;> with_unfolding_all decide

/-- C9: with in-bounds indexes, `RemoveIndexes` succeeds and replaces the
active backing sequence with exactly the elements at the listed positions
in list order (it retains the listed indexes), leaving the other variant's
sequence and the `DataType` tag unchanged. -/
theorem removeIndexes_retains_listed (s : Series) (idxs : List ℕ)
    (hin : ∀ i ∈ idxs, i < GetLength s) :
    (removeIndexes s idxs).isSome = true ∧
    ((removeIndexes s idxs).getD s).DataType = s.DataType ∧
    (s.DataType = "float" →
      ((removeIndexes s idxs).getD s).Float
          = idxs.map (fun i => s.Float.getD i 0) ∧
      ((removeIndexes s idxs).getD s).String = s.String) ∧
    (s.DataType ≠ "float" →
      ((removeIndexes s idxs).getD s).String
          = idxs.map (fun i => s.String.getD i "") ∧
      ((removeIndexes s idxs).getD s).Float = s.Float) := by
  by_cases hd : s.DataType = "float"
  · have hall : (idxs.all fun i => decide (i < s.Float.length)) = true := by
      rw [List.all_eq_true]
      intro i hi
      have hlt := hin i hi
      rw [GetLength, if_pos hd] at hlt
      simpa using hlt
    simp [removeIndexes, hd, hall]
  · have hall : (idxs.all fun i => decide (i < s.String.length)) = true := by
      rw [List.all_eq_true]
      intro i hi
      have hlt := hin i hi
      rw [GetLength, if_neg hd] at hlt
      simpa using hlt
    simp [removeIndexes, hd, hall]

/-- C9 witness: on the float Series `[10, 20, 30]`, the index list `[2, 0]`
yields the backing sequence `[30, 10]` — the listed elements, in list
order. -/
theorem removeIndexes_retains_listed_witness :
    ((removeIndexes ⟨"float", [10, 20, 30], []⟩ [2, 0]).getD
        ⟨"float", [10, 20, 30], []⟩).Float = [30, 10] := by
  have h := removeIndexes_retains_listed ⟨"float", [10, 20, 30], []⟩ [2, 0]
    (by decide)
  exact (h.2.2.1 rfl).1.trans (by decide)

/-- C10: converting toward the already-active variant is an identity —
`ConvertStringToFloat` on a float-typed Series and `ConvertFloatToString`
on a string-typed Series return immediately with every field unchanged. -/
theorem convert_identity_on_active_variant (s : Series) :
    (s.DataType = "float" → convertStringToFloat s = s) ∧
    (s.DataType = "string" → convertFloatToString s = s) := by
  constructor
  · intro h; simp [convertStringToFloat, h]
  · intro h; simp [convertFloatToString, h]

/-- C10 witness: concrete instances of both early returns. -/
theorem convert_identity_on_active_variant_witness :
    convertStringToFloat ⟨"float", [1], []⟩ = ⟨"float", [1], []⟩ ∧
    convertFloatToString ⟨"string", [], ["a"]⟩ = ⟨"string", [], ["a"]⟩ :=
  ⟨(convert_identity_on_active_variant ⟨"float", [1], []⟩).1 rfl,
   (convert_identity_on_active_variant ⟨"string", [], ["a"]⟩).2 rfl⟩
